import Mathlib

/-!
Verification of the troubleshooting step-tree core of models_new.py:
`TroubleshootingStep.get_steps`, `get_troubleshooting_steps` and
`get_solutions`, together with the Solution/CommonIssue catalog lookups
they perform. Python dictionaries are embedded as association lists in
insertion order, JSON values as an inductive type, and the fallible
Python operations (`json.loads`, `.items()`, `"solution" in node`,
`node["solution"]`) as `Except`-valued functions that mirror the
exceptions CPython raises.
-/

namespace Spec2Proof

/-- A JSON value as returned by Python's `json.loads`: objects are
association lists of string keys in document (insertion) order, since
`json.loads` produces `dict`s that preserve key order and have unique
keys. -/
inductive JVal where
  | null
  | bool (b : Bool)
  | int (n : Int)
  | str (s : String)
  | arr (elems : List JVal)
  | obj (fields : List (String × JVal))

/-- The Python exceptions the embedded code can raise: `json.loads` on a
string that is not valid JSON raises `json.JSONDecodeError`; `.items()`
on a non-dict raises `AttributeError`; `"solution" in node` on a
non-container and `node["solution"]` on a string or list raise
`TypeError`; indexing a dict at a missing key raises `KeyError`. -/
inductive PyErr where
  | jsonDecodeError
  | attributeError
  | typeError
  | keyError
deriving DecidableEq

/-- `charsStart pat l`: the character list `l` starts with `pat`. -/
def charsStart : List Char → List Char → Bool
  | [], _ => true
  | _ :: _, [] => false
  | a :: as, b :: bs => a == b && charsStart as bs

/-- `charsHasSub pat l`: `pat` occurs as a contiguous run inside `l`
(Python's substring containment for `pat in s`). -/
def charsHasSub (pat : List Char) : List Char → Bool
  | [] => charsStart pat []
  | c :: rest => charsStart pat (c :: rest) || charsHasSub pat rest

/-- Python `sub in s` on strings: substring containment. -/
def pyStrContains (s sub : String) : Bool :=
  charsHasSub sub.toList s.toList

/-- Python `"solution" in node` (models_new.py line 195): key membership
for a dict, substring test for a string, element membership (by `==`,
so only string elements can match) for a list, and `TypeError` for the
non-container values. -/
def py_contains_solution : JVal → Except PyErr Bool
  | .obj fields => .ok (fields.any (fun kv => kv.1 == "solution"))
  | .str s => .ok (pyStrContains s "solution")
  | .arr elems => .ok (elems.any (fun x =>
      match x with
      | .str t => t == "solution"
      | _ => false))
  | _ => .error .typeError

/-- Python `node["solution"]` (models_new.py line 196): dict lookup,
`TypeError` for string/list indexing with a string key, `TypeError` for
non-subscriptable values. -/
def py_index_solution : JVal → Except PyErr JVal
  | .obj fields =>
    match fields.find? (fun kv => kv.1 == "solution") with
    | some kv => .ok kv.2
    | none => .error .keyError
  | _ => .error .typeError

/-- Python `x if isinstance(x, int) else None`, collapsed to the integer
value: `bool` is a subclass of `int` in Python (`isinstance(True, int)`
holds, `True == 1`, `False == 0`, and truthiness agrees), so booleans
are kept and represented by their integer value. -/
def py_as_int : JVal → Option Int
  | .int n => some n
  | .bool b => some (if b then 1 else 0)
  | _ => none

/-- One iteration of the extraction loop of `get_solutions`
(models_new.py lines 194-198) on the accumulator `acc = solution_ids`:
`if "solution" in node: solution_id = node["solution"] if
isinstance(node["solution"], int) else None; if solution_id and
solution_id not in solution_ids: solution_ids.append(solution_id)`.
The guard `if solution_id` is Python truthiness: `None`, `0` and
`False` are all falsy. -/
def extract_step (acc : List Int) (node : JVal) : Except PyErr (List Int) :=
  match py_contains_solution node with
  | .error e => .error e
  | .ok false => .ok acc
  | .ok true =>
    match py_index_solution node with
    | .error e => .error e
    | .ok v =>
      match py_as_int v with
      | some n => .ok (if n ≠ 0 ∧ n ∉ acc then acc ++ [n] else acc)
      | none => .ok acc

/-- The extraction loop `for node_key, node in steps.items(): ...` over
the document's items in insertion order. -/
def extract_ids_go (acc : List Int) : List (String × JVal) → Except PyErr (List Int)
  | [] => .ok acc
  | kv :: rest =>
    match extract_step acc kv.2 with
    | .error e => .error e
    | .ok acc2 => extract_ids_go acc2 rest

/-- Lines 193-198 of models_new.py: build `solution_ids` from the parsed
steps value. `steps.items()` raises `AttributeError` when the parsed
payload is not a dict. -/
def extract_solution_ids (steps : JVal) : Except PyErr (List Int) :=
  match steps with
  | .obj fields => extract_ids_go [] fields
  | _ => .error .attributeError

/-- A row of the `solutions` table; `to_dict` returns exactly these
fields, so the record stands for its own dict form. -/
structure SolutionRec where
  id : Int
  title : String
  description : String
deriving DecidableEq

/-- A row of the `common_issues` table (the fields `to_dict` exposes). -/
structure CommonIssueRec where
  id : Int
  model_id : Int
  title : String
  description : String
deriving DecidableEq

/-- The stored text of a `troubleshooting_steps.steps` column, abstracted
by its `json.loads` outcome: a stored string either parses as JSON to
some value, or is not valid JSON at all. -/
inductive Payload where
  | jsonText (v : JVal)
  | invalidText

/-- `json.loads` on a stored payload (`TroubleshootingStep.get_steps`,
models_new.py lines 96-98): returns the parsed value for valid JSON and
raises `json.JSONDecodeError` otherwise. -/
def json_loads : Payload → Except PyErr JVal
  | .jsonText v => .ok v
  | .invalidText => .error .jsonDecodeError

/-- A row of the `troubleshooting_steps` table. -/
structure StepRow where
  id : Int
  issue_id : Int
  steps : Payload

/-- The read-only database state the two accessors consult:
`troubleshooting_steps` rows in table order (`filter_by(...).first()`
takes the first match), and the primary-key lookups
`CommonIssue.query.get` and `Solution.query.get` as partial maps. -/
structure DB where
  troubleshooting_steps : List StepRow
  issues : Int → Option CommonIssueRec
  solutions : Int → Option SolutionRec

/-- `Solution.query.get` respects the primary key: a record found under
key `n` has `id = n`. This is the primary-key semantics of the
`solutions` table (`id = db.Column(db.Integer, primary_key=True)`). -/
def SolutionsPK (db : DB) : Prop :=
  ∀ n s, db.solutions n = some s → s.id = n

/-- The foreign-key constraint declared on `troubleshooting_steps.issue_id`
(`db.ForeignKey('common_issues.id'), nullable=False`): every stored step
row points at an existing issue. -/
def StepsFK (db : DB) : Prop :=
  ∀ r ∈ db.troubleshooting_steps, (db.issues r.issue_id).isSome

/-- `TroubleshootingStep.query.filter_by(issue_id=issue_id).first()`. -/
def firstStepRow (db : DB) (issue_id : Int) : Option StepRow :=
  (db.troubleshooting_steps.filter (fun r => r.issue_id == issue_id)).head?

/-- The value `get_troubleshooting_steps` returns when both the step row
and the issue exist: `{'issue': issue.to_dict(), 'steps':
steps_data.get_steps()}`. -/
structure StepsResult where
  issue : CommonIssueRec
  steps : JVal

/-- models_new.py lines 168-181, `get_troubleshooting_steps`: `None`
(here `Option.none`) when no step row is stored for the issue or the
issue itself does not exist; otherwise the issue together with the
parsed steps document, with `json.loads` errors propagating to the
caller (the endpoint turns them into a 500 failure response). -/
def get_troubleshooting_steps (db : DB) (issue_id : Int) :
    Except PyErr (Option StepsResult) :=
  match firstStepRow db issue_id with
  | none => .ok none
  | some steps_data =>
    match db.issues issue_id with
    | none => .ok none
    | some issue =>
      match json_loads steps_data.steps with
      | .error e => .error e
      | .ok steps => .ok (some { issue := issue, steps := steps })

/-- Lines 200-207 of models_new.py: resolve each collected identifier
via `Solution.query.get`, keeping only the ones that resolve, in order. -/
def resolve_solution_ids (db : DB) (ids : List Int) : List SolutionRec :=
  ids.filterMap db.solutions

/-- models_new.py lines 183-207, `get_solutions`: the empty list (the
Python code wraps it as `{"solutions": []}`) when no step row is stored;
otherwise parse the payload, extract the deduplicated solution ids, and
resolve them. The issue record itself is never consulted. -/
def get_solutions (db : DB) (issue_id : Int) : Except PyErr (List SolutionRec) :=
  match firstStepRow db issue_id with
  | none => .ok []
  | some steps_data =>
    match json_loads steps_data.steps with
    | .error e => .error e
    | .ok steps =>
      match extract_solution_ids steps with
      | .error e => .error e
      | .ok ids => .ok (resolve_solution_ids db ids)

/-- A step document in the shape the data model gives it: node
identifiers in document (insertion) order, each node's content itself a
mapping from field name to value. -/
abbrev StepDoc := List (String × List (String × JVal))

/-- The `json.loads` image of a step document. -/
def docToJVal (d : StepDoc) : JVal :=
  .obj (d.map (fun kv => (kv.1, JVal.obj kv.2)))

/-- A node's solution-reference field: the binding of key `"solution"`
in the node's content, when present. -/
def nodeSolutionField (fields : List (String × JVal)) : Option JVal :=
  (fields.find? (fun kv => kv.1 == "solution")).map (fun kv => kv.2)

/-- The integer candidate a node contributes before the truthiness and
dedup guards: present iff the solution field exists and is a Python
`int` (booleans included). -/
def nodeCandidate (fields : List (String × JVal)) : Option Int :=
  (nodeSolutionField fields).bind py_as_int

/-- The append-if-truthy-and-new step of the extraction loop. -/
def insNZ (acc : List Int) (n : Int) : List Int :=
  if n ≠ 0 ∧ n ∉ acc then acc ++ [n] else acc

/-- The extraction loop body on a mapping node, as a total function. -/
def stepAcc (acc : List Int) (fields : List (String × JVal)) : List Int :=
  match nodeCandidate fields with
  | some n => insNZ acc n
  | none => acc

/-- The `solution_ids` list computed for a well-shaped step document. -/
def extractIdsPure (d : StepDoc) : List Int :=
  d.foldl (fun acc kv => stepAcc acc kv.2) []

/-- The integer solution references of a document, in document order,
before truthiness filtering and deduplication. -/
def docCandidates (d : StepDoc) : List Int :=
  d.filterMap (fun kv => nodeCandidate kv.2)

/-- Deduplicate preserving first-seen order while dropping zeros. -/
def dedupNZ (l : List Int) : List Int := l.foldl insNZ []

theorem find_isSome_eq_any {α : Type} (p : α → Bool) (l : List α) :
    (l.find? p).isSome = l.any p := by
  induction l with
  | nil => rfl
  | cons a l ih =>
    by_cases h : p a
    · simp [List.find?_cons, h]
    · simp [List.find?_cons, h, ih]

theorem extract_step_obj (acc : List Int) (fields : List (String × JVal)) :
    extract_step acc (.obj fields) = .ok (stepAcc acc fields) := by
  unfold extract_step py_contains_solution py_index_solution stepAcc nodeCandidate nodeSolutionField
  cases hf : fields.find? (fun kv => kv.1 == "solution") with
  | none =>
    have ha : fields.any (fun kv => kv.1 == "solution") = false := by
      rw [← find_isSome_eq_any, hf]; rfl
    simp [ha, hf]
  | some kv =>
    have ha : fields.any (fun kv => kv.1 == "solution") = true := by
      rw [← find_isSome_eq_any, hf]; rfl
    cases hv : py_as_int kv.2 <;> simp [ha, hf, hv, insNZ]

theorem extract_ids_go_doc (d : StepDoc) (acc : List Int) :
    extract_ids_go acc (d.map (fun kv => (kv.1, JVal.obj kv.2))) =
      .ok (d.foldl (fun acc kv => stepAcc acc kv.2) acc) := by
  induction d generalizing acc with
  | nil => rfl
  | cons a d ih => simp [extract_ids_go, extract_step_obj, ih]

theorem extract_solution_ids_doc (d : StepDoc) :
    extract_solution_ids (docToJVal d) = .ok (extractIdsPure d) := by
  unfold extract_solution_ids docToJVal extractIdsPure
  exact extract_ids_go_doc d []

theorem foldl_stepAcc_eq (d : StepDoc) (acc : List Int) :
    d.foldl (fun acc kv => stepAcc acc kv.2) acc = (docCandidates d).foldl insNZ acc := by
  induction d generalizing acc with
  | nil => rfl
  | cons a d ih =>
    rw [List.foldl_cons]
    show _ = (List.filterMap (fun kv => nodeCandidate kv.2) (a :: d)).foldl insNZ acc
    rw [List.filterMap_cons]
    cases h : nodeCandidate a.2 with
    | none =>
      rw [show stepAcc acc a.2 = acc by simp [stepAcc, h]]
      exact ih acc
    | some n =>
      rw [show stepAcc acc a.2 = insNZ acc n by simp [stepAcc, h]]
      rw [List.foldl_cons]
      exact ih (insNZ acc n)

theorem extract_eq_dedup (d : StepDoc) :
    extractIdsPure d = dedupNZ (docCandidates d) :=
  foldl_stepAcc_eq d []

theorem mem_insNZ (acc : List Int) (m n : Int) :
    n ∈ insNZ acc m ↔ n ∈ acc ∨ (n = m ∧ m ≠ 0) := by
  unfold insNZ
  by_cases h : m ≠ 0 ∧ m ∉ acc
  · rw [if_pos h]
    simp only [List.mem_append, List.mem_singleton]
    constructor
    · rintro (h1 | h1)
      · exact Or.inl h1
      · exact Or.inr ⟨h1, h.1⟩
    · rintro (h1 | ⟨h1, _⟩)
      · exact Or.inl h1
      · exact Or.inr h1
  · rw [if_neg h]
    push_neg at h
    constructor
    · exact Or.inl
    · rintro (h1 | ⟨rfl, hz⟩)
      · exact h1
      · exact h hz

theorem mem_foldl_insNZ (l acc : List Int) (n : Int) :
    n ∈ l.foldl insNZ acc ↔ n ∈ acc ∨ (n ∈ l ∧ n ≠ 0) := by
  induction l generalizing acc with
  | nil => simp
  | cons m l ih =>
    rw [List.foldl_cons, ih, mem_insNZ]
    constructor
    · rintro ((h1 | ⟨rfl, hz⟩) | ⟨h1, hz⟩)
      · exact Or.inl h1
      · exact Or.inr ⟨List.mem_cons_self n l, hz⟩
      · exact Or.inr ⟨List.mem_cons_of_mem m h1, hz⟩
    · rintro (h1 | ⟨h1, hz⟩)
      · exact Or.inl (Or.inl h1)
      · rcases List.mem_cons.mp h1 with rfl | h2
        · exact Or.inl (Or.inr ⟨rfl, hz⟩)
        · exact Or.inr ⟨h2, hz⟩

theorem nodup_foldl_insNZ (l acc : List Int) (h : acc.Nodup) :
    (l.foldl insNZ acc).Nodup := by
  induction l generalizing acc with
  | nil => exact h
  | cons m l ih =>
    rw [List.foldl_cons]
    apply ih
    unfold insNZ
    by_cases hc : m ≠ 0 ∧ m ∉ acc
    · rw [if_pos hc]
      refine List.Nodup.append h (List.nodup_singleton m) ?_
      intro x hx hm
      rw [List.mem_singleton] at hm
      subst hm
      exact hc.2 hx
    · rw [if_neg hc]
      exact h

theorem nodup_extractIdsPure (d : StepDoc) : (extractIdsPure d).Nodup := by
  rw [extract_eq_dedup]
  exact nodup_foldl_insNZ _ _ List.nodup_nil

theorem mem_extractIdsPure (d : StepDoc) (n : Int) :
    n ∈ extractIdsPure d ↔ n ∈ docCandidates d ∧ n ≠ 0 := by
  rw [extract_eq_dedup, dedupNZ, mem_foldl_insNZ]
  simp

theorem count_extractIdsPure_eq_one (d : StepDoc) (n : Int)
    (hn : n ≠ 0) (hmem : n ∈ docCandidates d) :
    (extractIdsPure d).count n = 1 :=
  List.count_eq_one_of_mem (nodup_extractIdsPure d)
    ((mem_extractIdsPure d n).mpr ⟨hmem, hn⟩)

theorem docCandidates_append (d1 d2 : StepDoc) :
    docCandidates (d1 ++ d2) = docCandidates d1 ++ docCandidates d2 := by
  unfold docCandidates
  rw [List.filterMap_append]

theorem foldl_insNZ_zero (acc l : List Int) :
    List.foldl insNZ acc (0 :: l) = List.foldl insNZ acc l := by
  rw [List.foldl_cons, show insNZ acc 0 = acc by simp [insNZ]]

theorem count_filterMap_pk (f : Int → Option SolutionRec) (l : List Int)
    (n : Int) (s : SolutionRec) (hf : f n = some s)
    (hpk : ∀ m t, f m = some t → t.id = m) :
    List.count s (List.filterMap f l) = List.count n l := by
  induction l with
  | nil => rfl
  | cons m l ih =>
    rw [List.filterMap_cons]
    cases hm : f m with
    | none =>
      have hmn : m ≠ n := by
        intro he
        subst he
        rw [hm] at hf
        exact Option.noConfusion hf
      simp [List.count_cons, hmn, ih]
    | some t =>
      have hiff : (t = s) ↔ (m = n) := by
        constructor
        · intro he
          have h1 : s.id = m := he ▸ hpk m t hm
          have h2 : s.id = n := hpk n s hf
          rw [← h1, h2]
        · intro he
          subst he
          rw [hm] at hf
          exact Option.some.inj hf
      by_cases he : t = s
      · have hmn : m = n := hiff.mp he
        simp [List.count_cons, ih, he, hmn]
      · have hmn : m ≠ n := fun h2 => he (hiff.mpr h2)
        simp [List.count_cons, ih, he, hmn]

theorem length_filterMap_lt {α β : Type} (f : α → Option β) (l : List α)
    (n : α) (hmem : n ∈ l) (hn : f n = none) :
    (List.filterMap f l).length < l.length := by
  induction l with
  | nil => cases hmem
  | cons m l ih =>
    rw [List.filterMap_cons]
    cases hm : f m with
    | none =>
      rcases List.mem_cons.mp hmem with rfl | h2
      · exact Nat.lt_succ_of_le (List.length_filterMap_le f l)
      · exact Nat.lt_succ_of_lt (ih h2)
    | some t =>
      rcases List.mem_cons.mp hmem with rfl | h2
      · rw [hm] at hn
        exact Option.noConfusion hn
      · simp only [List.length_cons]
        exact Nat.succ_lt_succ (ih h2)

theorem get_solutions_no_row (db : DB) (i : Int)
    (h : firstStepRow db i = none) : get_solutions db i = .ok [] := by
  unfold get_solutions
  rw [h]

theorem get_troubleshooting_steps_no_row (db : DB) (i : Int)
    (h : firstStepRow db i = none) :
    get_troubleshooting_steps db i = .ok none := by
  unfold get_troubleshooting_steps
  rw [h]

theorem get_troubleshooting_steps_no_issue (db : DB) (i : Int)
    (h : db.issues i = none) :
    get_troubleshooting_steps db i = .ok none := by
  unfold get_troubleshooting_steps
  cases hrow : firstStepRow db i with
  | none => rfl
  | some row => rw [h]

theorem get_solutions_doc (db : DB) (i : Int) (row : StepRow) (d : StepDoc)
    (hrow : firstStepRow db i = some row)
    (hpay : row.steps = .jsonText (docToJVal d)) :
    get_solutions db i = .ok (resolve_solution_ids db (extractIdsPure d)) := by
  simp only [get_solutions, hrow, hpay, json_loads, extract_solution_ids_doc]

theorem get_troubleshooting_steps_doc (db : DB) (i : Int) (row : StepRow)
    (issue : CommonIssueRec) (v : JVal)
    (hrow : firstStepRow db i = some row)
    (hissue : db.issues i = some issue)
    (hpay : row.steps = .jsonText v) :
    get_troubleshooting_steps db i = .ok (some ⟨issue, v⟩) := by
  simp only [get_troubleshooting_steps, hrow, hissue, hpay, json_loads]

theorem firstStepRow_none_of_no_issue (db : DB) (i : Int)
    (hfk : StepsFK db) (hissue : db.issues i = none) :
    firstStepRow db i = none := by
  unfold firstStepRow
  have hnil : db.troubleshooting_steps.filter (fun r => r.issue_id == i) = [] := by
    rw [List.filter_eq_nil_iff]
    intro r hr hri
    have h1 := hfk r hr
    rw [eq_of_beq hri, hissue] at h1
    exact Bool.noConfusion h1
  rw [hnil]
  rfl

/-- Claim C4: for every step document containing a node whose
solution-reference field is present but holds a non-integer value, that
node contributes nothing to the extracted candidate list and extraction
raises no error: `get_solutions` succeeds and returns exactly what it
returns on the document with that node removed. -/
theorem c4_non_integer_reference_contributes_nothing
    (db : DB) (i : Int) (row : StepRow) (pre post : StepDoc)
    (k : String) (fields : List (String × JVal)) (v : JVal)
    (hrow : firstStepRow db i = some row)
    (hpay : row.steps = .jsonText (docToJVal (pre ++ (k, fields) :: post)))
    (hsol : nodeSolutionField fields = some v)
    (hnotint : py_as_int v = none) :
    get_solutions db i = .ok (resolve_solution_ids db (extractIdsPure (pre ++ post))) := by
  rw [get_solutions_doc db i row _ hrow hpay]
  have hc : nodeCandidate fields = none := by
    unfold nodeCandidate
    rw [hsol]
    exact hnotint
  have hids : extractIdsPure (pre ++ (k, fields) :: post) = extractIdsPure (pre ++ post) := by
    rw [extract_eq_dedup, extract_eq_dedup]
    congr 1
    rw [docCandidates_append, docCandidates_append]
    congr 1
    unfold docCandidates
    rw [List.filterMap_cons]
    simp [hc]
  rw [hids]

/-- A one-row database whose issue-7 step document has a string-valued
solution reference in node `s1` and an integer one in node `s2`. -/
def c4wDB : DB :=
  { troubleshooting_steps :=
      [⟨1, 7, .jsonText (docToJVal
        [("s1", [("solution", JVal.str "see step2")]),
         ("s2", [("solution", JVal.int 3)])])⟩]
    issues := fun n => if n = 7 then some ⟨7, 1, "issue", "desc"⟩ else none
    solutions := fun n => if n = 3 then some ⟨3, "fix", "details"⟩ else none }

theorem c4_witness :
    get_solutions c4wDB 7 =
      .ok (resolve_solution_ids c4wDB (extractIdsPure [("s2", [("solution", JVal.int 3)])])) :=
  c4_non_integer_reference_contributes_nothing c4wDB 7
    ⟨1, 7, .jsonText (docToJVal
      [("s1", [("solution", JVal.str "see step2")]),
       ("s2", [("solution", JVal.int 3)])])⟩
    [] [("s2", [("solution", JVal.int 3)])] "s1"
    [("solution", JVal.str "see step2")] (JVal.str "see step2")
    rfl rfl rfl rfl

/-- Claim C5: identifiers with no record in the Solution catalog are
silently dropped: `get_solutions` succeeds, every record of the result
is the resolution of an extracted identifier, the result length is at
most the distinct-reference count, and strictly less than it when some
extracted identifier is unresolvable. -/
theorem c5_unresolvable_references_silently_dropped
    (db : DB) (i : Int) (row : StepRow) (d : StepDoc)
    (hrow : firstStepRow db i = some row)
    (hpay : row.steps = .jsonText (docToJVal d)) :
    get_solutions db i = .ok (resolve_solution_ids db (extractIdsPure d)) ∧
    (∀ s ∈ resolve_solution_ids db (extractIdsPure d),
      ∃ n ∈ extractIdsPure d, db.solutions n = some s) ∧
    (resolve_solution_ids db (extractIdsPure d)).length ≤ (extractIdsPure d).length ∧
    ((∃ n ∈ extractIdsPure d, db.solutions n = none) →
      (resolve_solution_ids db (extractIdsPure d)).length < (extractIdsPure d).length) := by
  refine ⟨get_solutions_doc db i row d hrow hpay, ?_, ?_, ?_⟩
  · intro s hs
    exact List.mem_filterMap.mp hs
  · exact List.length_filterMap_le db.solutions (extractIdsPure d)
  · rintro ⟨n, hn, hnone⟩
    exact length_filterMap_lt db.solutions (extractIdsPure d) n hn hnone

/-- A database whose issue-7 document references ids 3 and 4, with only
id 3 present in the Solution catalog. -/
def c5wDB : DB :=
  { troubleshooting_steps :=
      [⟨1, 7, .jsonText (docToJVal
        [("a", [("solution", JVal.int 3)]),
         ("b", [("solution", JVal.int 4)])])⟩]
    issues := fun n => if n = 7 then some ⟨7, 1, "issue", "desc"⟩ else none
    solutions := fun n => if n = 3 then some ⟨3, "fix", "details"⟩ else none }

/-- The issue-7 step document stored in `c5wDB`. -/
def c5wDoc : StepDoc :=
  [("a", [("solution", JVal.int 3)]), ("b", [("solution", JVal.int 4)])]

theorem c5_witness :
    get_solutions c5wDB 7 = .ok (resolve_solution_ids c5wDB (extractIdsPure c5wDoc)) ∧
    (resolve_solution_ids c5wDB (extractIdsPure c5wDoc)).length < (extractIdsPure c5wDoc).length := by
  have h := c5_unresolvable_references_silently_dropped c5wDB 7
    ⟨1, 7, .jsonText (docToJVal c5wDoc)⟩ c5wDoc rfl rfl
  exact ⟨h.1, h.2.2.2 ⟨4, by decide, rfl⟩⟩

/-- Claim C6: for an issue with no stored step document (or a
nonexistent issue, which under the declared foreign-key constraint has
no stored document either), `get_troubleshooting_steps` returns the
absent signal `none` and `get_solutions` returns the empty list, and
neither raises an error. -/
theorem c6_absent_issue_returns_absent_and_empty
    (db : DB) (i : Int) (hfk : StepsFK db)
    (h : firstStepRow db i = none ∨ db.issues i = none) :
    get_troubleshooting_steps db i = .ok none ∧ get_solutions db i = .ok [] := by
  rcases h with h | h
  · exact ⟨get_troubleshooting_steps_no_row db i h, get_solutions_no_row db i h⟩
  · have hrow := firstStepRow_none_of_no_issue db i hfk h
    exact ⟨get_troubleshooting_steps_no_row db i hrow, get_solutions_no_row db i hrow⟩

/-- A database holding one step document, for issue 7 only; issue 9 has
neither an issue record nor a step document. -/
def c6wDB : DB :=
  { troubleshooting_steps :=
      [⟨1, 7, .jsonText (docToJVal [("a", [("solution", JVal.int 3)])])⟩]
    issues := fun n => if n = 7 then some ⟨7, 1, "issue", "desc"⟩ else none
    solutions := fun n => if n = 3 then some ⟨3, "fix", "details"⟩ else none }

theorem c6_witness :
    get_troubleshooting_steps c6wDB 9 = .ok none ∧ get_solutions c6wDB 9 = .ok [] := by
  have hfk : StepsFK c6wDB := by
    intro r hr
    have he : r = ⟨1, 7, .jsonText (docToJVal [("a", [("solution", JVal.int 3)])])⟩ := by
      simpa [c6wDB] using hr
    subst he
    rfl
  exact c6_absent_issue_returns_absent_and_empty c6wDB 9 hfk (Or.inl rfl)

theorem docCandidates_eq_of_map_eq (d1 d2 : StepDoc)
    (h : d1.map (fun kv => (kv.1, nodeSolutionField kv.2)) =
         d2.map (fun kv => (kv.1, nodeSolutionField kv.2))) :
    docCandidates d1 = docCandidates d2 := by
  have e1 : docCandidates d1 =
      (d1.map (fun kv => (kv.1, nodeSolutionField kv.2))).filterMap
        (fun kv => kv.2.bind py_as_int) := by
    rw [List.filterMap_map]
    rfl
  have e2 : docCandidates d2 =
      (d2.map (fun kv => (kv.1, nodeSolutionField kv.2))).filterMap
        (fun kv => kv.2.bind py_as_int) := by
    rw [List.filterMap_map]
    rfl
  rw [e1, e2, h]

/-- Claim C8: extraction visits every node in document key order,
independently of graph reachability: two stored documents whose nodes
carry identical solution-reference fields in identical key order, but
arbitrary other content (next-node references included), give the same
`get_solutions` result against the same catalog. -/
theorem c8_result_depends_only_on_solution_fields
    (db : DB) (i1 i2 : Int) (r1 r2 : StepRow) (d1 d2 : StepDoc)
    (h1 : firstStepRow db i1 = some r1)
    (hp1 : r1.steps = .jsonText (docToJVal d1))
    (h2 : firstStepRow db i2 = some r2)
    (hp2 : r2.steps = .jsonText (docToJVal d2))
    (hsol : d1.map (fun kv => (kv.1, nodeSolutionField kv.2)) =
            d2.map (fun kv => (kv.1, nodeSolutionField kv.2))) :
    get_solutions db i1 = get_solutions db i2 := by
  rw [get_solutions_doc db i1 r1 d1 h1 hp1, get_solutions_doc db i2 r2 d2 h2 hp2,
    extract_eq_dedup d1, extract_eq_dedup d2, docCandidates_eq_of_map_eq d1 d2 hsol]

/-- The issue-7 document of `c8wDB`: solution fields `2` and `"x"` plus
question text and next-node references. -/
def c8wDoc1 : StepDoc :=
  [("a", [("q", JVal.str "Power on?"), ("solution", JVal.int 2), ("next", JVal.str "b")]),
   ("b", [("solution", JVal.str "x")])]

/-- The issue-8 document of `c8wDB`: same keys and solution fields as
`c8wDoc1`, entirely different other content. -/
def c8wDoc2 : StepDoc :=
  [("a", [("solution", JVal.int 2)]),
   ("b", [("note", JVal.str "y"), ("solution", JVal.str "x"), ("next", JVal.str "a")])]

/-- A database storing `c8wDoc1` for issue 7 and `c8wDoc2` for issue 8. -/
def c8wDB : DB :=
  { troubleshooting_steps :=
      [⟨1, 7, .jsonText (docToJVal c8wDoc1)⟩, ⟨2, 8, .jsonText (docToJVal c8wDoc2)⟩]
    issues := fun n => if n = 7 ∨ n = 8 then some ⟨n, 1, "issue", "desc"⟩ else none
    solutions := fun n => if n = 2 then some ⟨2, "fix", "details"⟩ else none }

theorem c8_witness : get_solutions c8wDB 7 = get_solutions c8wDB 8 :=
  c8_result_depends_only_on_solution_fields c8wDB 7 8
    ⟨1, 7, .jsonText (docToJVal c8wDoc1)⟩ ⟨2, 8, .jsonText (docToJVal c8wDoc2)⟩
    c8wDoc1 c8wDoc2 rfl rfl rfl rfl rfl

/-- Claim C9: a node whose solution field holds the boolean `true` is
treated by extraction exactly as a node referencing the integer 1 (in
particular it deduplicates against any literal 1 in the document), and a
node whose solution field holds `false` contributes nothing; neither is
rejected as a non-integer value. -/
theorem c9_boolean_solution_references
    (pre post : StepDoc) (k : String) (fields : List (String × JVal)) :
    (nodeSolutionField fields = some (.bool true) →
      extractIdsPure (pre ++ (k, fields) :: post) =
        extractIdsPure (pre ++ (k, [("solution", JVal.int 1)]) :: post)) ∧
    (nodeSolutionField fields = some (.bool false) →
      extractIdsPure (pre ++ (k, fields) :: post) = extractIdsPure (pre ++ post)) := by
  constructor
  · intro h
    have hc : nodeCandidate fields = some 1 := by
      unfold nodeCandidate
      rw [h]
      rfl
    have hc2 : nodeCandidate [("solution", JVal.int 1)] = some 1 := rfl
    rw [extract_eq_dedup, extract_eq_dedup]
    congr 1
    rw [docCandidates_append, docCandidates_append]
    congr 1
    unfold docCandidates
    simp only [List.filterMap_cons, hc, hc2]
  · intro h
    have hc : nodeCandidate fields = some 0 := by
      unfold nodeCandidate
      rw [h]
      rfl
    have hsplit : docCandidates (pre ++ (k, fields) :: post) =
        docCandidates pre ++ 0 :: docCandidates post := by
      rw [docCandidates_append]
      congr 1
      unfold docCandidates
      rw [List.filterMap_cons]
      simp [hc]
    rw [extract_eq_dedup, extract_eq_dedup, hsplit, docCandidates_append,
      dedupNZ, dedupNZ, List.foldl_append, List.foldl_append, foldl_insNZ_zero]

theorem c9_witness :
    extractIdsPure [("t", [("solution", JVal.bool true)]), ("z", [("solution", JVal.int 1)])] =
      extractIdsPure [("t", [("solution", JVal.int 1)]), ("z", [("solution", JVal.int 1)])] ∧
    extractIdsPure [("f", [("solution", JVal.bool false)]), ("z", [("solution", JVal.int 1)])] =
      extractIdsPure [("z", [("solution", JVal.int 1)])] :=
  ⟨(c9_boolean_solution_references [] [("z", [("solution", JVal.int 1)])] "t"
      [("solution", JVal.bool true)]).1 rfl,
   (c9_boolean_solution_references [] [("z", [("solution", JVal.int 1)])] "f"
      [("solution", JVal.bool false)]).2 rfl⟩

/-- Claim C10: `get_solutions` never consults the issue record: on a
database state holding a step document for an identifier with no
CommonIssue record, it still returns the extracted and resolved list,
while `get_troubleshooting_steps` returns the absent signal. -/
theorem c10_get_solutions_ignores_issue_record
    (db : DB) (i : Int) (row : StepRow) (d : StepDoc)
    (hrow : firstStepRow db i = some row)
    (hpay : row.steps = .jsonText (docToJVal d))
    (hissue : db.issues i = none) :
    get_solutions db i = .ok (resolve_solution_ids db (extractIdsPure d)) ∧
    get_troubleshooting_steps db i = .ok none :=
  ⟨get_solutions_doc db i row d hrow hpay,
   get_troubleshooting_steps_no_issue db i hissue⟩

/-- A database state with a step document stored under issue id 9 but no
issue record at all (the foreign-key constraint is deliberately not
assumed here). -/
def c10wDB : DB :=
  { troubleshooting_steps :=
      [⟨1, 9, .jsonText (docToJVal [("a", [("solution", JVal.int 3)])])⟩]
    issues := fun _ => none
    solutions := fun n => if n = 3 then some ⟨3, "fix", "details"⟩ else none }

theorem c10_witness :
    get_solutions c10wDB 9 =
      .ok (resolve_solution_ids c10wDB (extractIdsPure [("a", [("solution", JVal.int 3)])])) ∧
    get_troubleshooting_steps c10wDB 9 = .ok none :=
  c10_get_solutions_ignores_issue_record c10wDB 9
    ⟨1, 9, .jsonText (docToJVal [("a", [("solution", JVal.int 3)])])⟩
    [("a", [("solution", JVal.int 3)])] rfl rfl rfl

/-- A database whose issue-7 document has two distinct nodes both
referencing solution id 0, with a catalog record stored under id 0. -/
def c1cxDB : DB :=
  { troubleshooting_steps :=
      [⟨1, 7, .jsonText (docToJVal
        [("step1", [("solution", JVal.int 0)]),
         ("step2", [("solution", JVal.int 0)])])⟩]
    issues := fun n => if n = 7 then some ⟨7, 1, "issue", "desc"⟩ else none
    solutions := fun n => if n = 0 then some ⟨0, "fix", "details"⟩ else none }

/-- Claim C1 counterexample: two distinct nodes carry the same integer
solution value 0 and id 0 resolves in the catalog, yet `get_solutions`
returns the empty list — the record appears zero times, not exactly
once, because `if solution_id` treats the integer 0 as falsy. -/
theorem c1_counterexample :
    c1cxDB.solutions 0 = some ⟨0, "fix", "details"⟩ ∧
    get_solutions c1cxDB 7 = .ok [] := ⟨rfl, rfl⟩

/-- Claim C1 (amended): for every step document in which two or more
distinct nodes carry the same *nonzero* integer solution-reference
value, and that identifier resolves in the Solution catalog, the
resolved list contains the corresponding record exactly once (a zero
reference is dropped by the truthiness guard instead). -/
theorem c1_amended_shared_nonzero_reference_resolves_once
    (db : DB) (i : Int) (row : StepRow)
    (pre mid post : StepDoc) (kA kB : String)
    (fA fB : List (String × JVal)) (n : Int) (s : SolutionRec)
    (hA : nodeSolutionField fA = some (.int n))
    (hB : nodeSolutionField fB = some (.int n))
    (hn : n ≠ 0)
    (hrow : firstStepRow db i = some row)
    (hpay : row.steps = .jsonText (docToJVal (pre ++ (kA, fA) :: mid ++ (kB, fB) :: post)))
    (hpk : SolutionsPK db)
    (hs : db.solutions n = some s) :
    get_solutions db i =
      .ok (resolve_solution_ids db
        (extractIdsPure (pre ++ (kA, fA) :: mid ++ (kB, fB) :: post))) ∧
    List.count s (resolve_solution_ids db
      (extractIdsPure (pre ++ (kA, fA) :: mid ++ (kB, fB) :: post))) = 1 := by
  refine ⟨get_solutions_doc db i row _ hrow hpay, ?_⟩
  unfold resolve_solution_ids
  rw [count_filterMap_pk db.solutions _ n s hs hpk]
  apply count_extractIdsPure_eq_one _ n hn
  have hcA : nodeCandidate fA = some n := by
    unfold nodeCandidate
    rw [hA]
    rfl
  show n ∈ List.filterMap (fun kv => nodeCandidate kv.2) (pre ++ (kA, fA) :: mid ++ (kB, fB) :: post)
  exact List.mem_filterMap.mpr ⟨(kA, fA), by simp, hcA⟩

/-- The issue-7 step document of `c1wDB`: two nodes sharing reference 5. -/
def c1wDoc : StepDoc :=
  [("a", [("solution", JVal.int 5)]), ("b", [("solution", JVal.int 5)])]

/-- A database storing `c1wDoc` for issue 7 with solution 5 resolvable. -/
def c1wDB : DB :=
  { troubleshooting_steps := [⟨1, 7, .jsonText (docToJVal c1wDoc)⟩]
    issues := fun n => if n = 7 then some ⟨7, 1, "issue", "desc"⟩ else none
    solutions := fun n => if n = 5 then some ⟨5, "fix", "details"⟩ else none }

theorem c1_amended_witness :
    get_solutions c1wDB 7 = .ok (resolve_solution_ids c1wDB (extractIdsPure c1wDoc)) ∧
    List.count ⟨5, "fix", "details"⟩
      (resolve_solution_ids c1wDB (extractIdsPure c1wDoc)) = 1 := by
  have hpk : SolutionsPK c1wDB := by
    intro n s h
    simp only [c1wDB] at h
    split at h
    · rename_i hn
      injection h with h2
      rw [← h2, hn]
    · exact Option.noConfusion h
  exact c1_amended_shared_nonzero_reference_resolves_once c1wDB 7
    ⟨1, 7, .jsonText (docToJVal c1wDoc)⟩ [] [] [] "a" "b"
    [("solution", JVal.int 5)] [("solution", JVal.int 5)] 5 ⟨5, "fix", "details"⟩
    rfl rfl (by decide) rfl rfl hpk rfl

/-- Claim C2 counterexample: solution references appear in nodes a, b, c
in key order with values 0, 0, 5 — node b repeats the value first seen
in a — yet the deduplicated output is [5], not [0, 5]: the truthiness
guard drops the 0 reference entirely. -/
theorem c2_counterexample :
    extractIdsPure
      [("a", [("solution", JVal.int 0)]),
       ("b", [("solution", JVal.int 0)]),
       ("c", [("solution", JVal.int 5)])] = [5] ∧
    ([5] : List Int) ≠ [0, 5] := ⟨rfl, by decide⟩

/-- Claim C2 (amended): for solution references appearing in nodes in
key order A, B, C where B repeats the *nonzero* value first seen in A
and C carries a different nonzero value, the deduplicated extraction
output preserves first-seen order: [A's value, C's value]. -/
theorem c2_amended_first_seen_order
    (d : StepDoc) (a c : Int)
    (ha : a ≠ 0) (hc : c ≠ 0) (hne : c ≠ a)
    (hcand : docCandidates d = [a, a, c]) :
    extractIdsPure d = [a, c] := by
  rw [extract_eq_dedup, hcand]
  unfold dedupNZ
  rw [List.foldl_cons, List.foldl_cons, List.foldl_cons, List.foldl_nil]
  rw [show insNZ [] a = [a] by simp [insNZ, ha]]
  rw [show insNZ [a] a = [a] by simp [insNZ]]
  rw [show insNZ [a] c = [a, c] by simp [insNZ, hc, hne]]

theorem c2_amended_witness :
    extractIdsPure
      [("a", [("solution", JVal.int 3)]),
       ("b", [("solution", JVal.int 3)]),
       ("c", [("solution", JVal.int 4)])] = [3, 4] :=
  c2_amended_first_seen_order
    [("a", [("solution", JVal.int 3)]),
     ("b", [("solution", JVal.int 3)]),
     ("c", [("solution", JVal.int 4)])] 3 4
    (by decide) (by decide) (by decide) rfl

/-- Claim C3 counterexample: a node whose solution-reference field is
present with the integer value 0 contributes nothing to the candidate
list — the integer 0 is not recorded, because the `if solution_id`
truthiness guard treats it as absent. -/
theorem c3_counterexample :
    nodeSolutionField [("solution", JVal.int 0)] = some (JVal.int 0) ∧
    extractIdsPure [("step1", [("solution", JVal.int 0)])] = [] := ⟨rfl, rfl⟩

/-- Claim C3 (amended): for every node whose solution-reference field is
present with a *nonzero* integer value (negative integers included),
that integer is recorded as a candidate identifier exactly once per
distinct value; a zero-valued reference contributes nothing. -/
theorem c3_amended_nonzero_integers_recorded
    (d : StepDoc) (k : String) (fields : List (String × JVal)) (n : Int)
    (hmem : (k, fields) ∈ d)
    (hsol : nodeSolutionField fields = some (.int n)) :
    (n ≠ 0 → List.count n (extractIdsPure d) = 1) ∧ (0 : Int) ∉ extractIdsPure d := by
  constructor
  · intro hn
    apply count_extractIdsPure_eq_one d n hn
    have hc : nodeCandidate fields = some n := by
      unfold nodeCandidate
      rw [hsol]
      rfl
    show n ∈ List.filterMap (fun kv => nodeCandidate kv.2) d
    exact List.mem_filterMap.mpr ⟨(k, fields), hmem, hc⟩
  · intro h0
    rw [mem_extractIdsPure] at h0
    exact h0.2 rfl

theorem c3_amended_witness :
    List.count (-2 : Int)
      (extractIdsPure [("s", [("solution", JVal.int (-2))])]) = 1 ∧
    (0 : Int) ∉ extractIdsPure [("s", [("solution", JVal.int (-2))])] := by
  have h := c3_amended_nonzero_integers_recorded
    [("s", [("solution", JVal.int (-2))])] "s"
    [("solution", JVal.int (-2))] (-2) (by simp) rfl
  exact ⟨h.1 (by decide), h.2⟩

/-- A database whose issue-7 step payload is valid JSON that is not a
mapping (the empty JSON array), with the issue record present. -/
def c7cxDB : DB :=
  { troubleshooting_steps := [⟨1, 7, .jsonText (JVal.arr [])⟩]
    issues := fun n => if n = 7 then some ⟨7, 1, "issue", "desc"⟩ else none
    solutions := fun _ => none }

/-- Claim C7 counterexample: a stored payload that parses as JSON but
not as a mapping is not reported as any error: `get_troubleshooting_steps`
silently succeeds and returns the non-mapping value as the steps tree. -/
theorem c7_counterexample :
    get_troubleshooting_steps c7cxDB 7 =
      .ok (some ⟨⟨7, 1, "issue", "desc"⟩, JVal.arr []⟩) := rfl

/-- Claim C7 (amended): a stored payload that is not parseable as JSON
at all makes both accessors fail with the deserialization error
(surfaced to the caller as a failure response, distinct from the absent
and empty cases); a payload that parses as JSON to a non-mapping value,
however, is silently returned as the steps tree by
`get_troubleshooting_steps`, while `get_solutions` fails on it with an
attribute error. -/
theorem c7_amended_malformed_payload_behavior
    (db : DB) (i : Int) (row : StepRow) (issue : CommonIssueRec)
    (hrow : firstStepRow db i = some row)
    (hissue : db.issues i = some issue) :
    (row.steps = .invalidText →
      get_troubleshooting_steps db i = .error .jsonDecodeError ∧
      get_solutions db i = .error .jsonDecodeError) ∧
    (∀ v : JVal, row.steps = .jsonText v → (∀ fields, v ≠ .obj fields) →
      get_troubleshooting_steps db i = .ok (some ⟨issue, v⟩) ∧
      get_solutions db i = .error .attributeError) := by
  constructor
  · intro hpay
    constructor
    · simp only [get_troubleshooting_steps, hrow, hissue, hpay, json_loads]
    · simp only [get_solutions, hrow, hpay, json_loads]
  · intro v hpay hnotobj
    refine ⟨get_troubleshooting_steps_doc db i row issue v hrow hissue hpay, ?_⟩
    have hext : extract_solution_ids v = .error .attributeError := by
      cases v with
      | obj fields => exact absurd rfl (hnotobj fields)
      | null => rfl
      | bool b => rfl
      | int n => rfl
      | str s => rfl
      | arr elems => rfl
    simp only [get_solutions, hrow, hpay, json_loads, hext]

/-- A database with a non-JSON payload stored for issue 7 and a
JSON-array payload stored for issue 8, both issues existing. -/
def c7wDB : DB :=
  { troubleshooting_steps := [⟨1, 7, .invalidText⟩, ⟨2, 8, .jsonText (JVal.arr [])⟩]
    issues := fun n => if n = 7 ∨ n = 8 then some ⟨n, 1, "issue", "desc"⟩ else none
    solutions := fun _ => none }

theorem c7_amended_witness :
    (get_troubleshooting_steps c7wDB 7 = .error .jsonDecodeError ∧
     get_solutions c7wDB 7 = .error .jsonDecodeError) ∧
    (get_troubleshooting_steps c7wDB 8 = .ok (some ⟨⟨8, 1, "issue", "desc"⟩, JVal.arr []⟩) ∧
     get_solutions c7wDB 8 = .error .attributeError) := by
  have h7 := c7_amended_malformed_payload_behavior c7wDB 7 ⟨1, 7, .invalidText⟩
    ⟨7, 1, "issue", "desc"⟩ rfl rfl
  have h8 := c7_amended_malformed_payload_behavior c7wDB 8 ⟨2, 8, .jsonText (JVal.arr [])⟩
    ⟨8, 1, "issue", "desc"⟩ rfl rfl
  exact ⟨h7.1 rfl, h8.2 (JVal.arr []) rfl (fun fields h => JVal.noConfusion h)⟩

end Spec2Proof
